import Mathlib

/-!
Verification of the protocol-adapter layer of `urllib3-ext-hface`.

The adapters in `src/urllib3_ext_hface/protocols/` wrap opaque protocol
engines (the `h2` HTTP/2 state machine, the `qh3`/`aioquic` QUIC + HTTP/3
stacks).  The engines are out of scope: each adapter operation that consults
an engine takes the engine's behaviour for that call (the native events it
returned, or the exception it raised, or the datagrams it produced) as an
explicit argument, and the calls the adapter makes into the engine are
recorded in an explicit call log so that claims about "what the adapter told
the engine" are stateable.

Mutable Python state (the `deque` of events, the `_terminated` flag, the
`set` of connection ids, `_http is None`) is modelled by explicit state
records, with each Python method a function from state to state.
-/

namespace Hface

/-- Byte strings (`bytes` in Python) are modelled as lists of byte values. -/
abbrev Bytes := List Nat

/-- Modelled from the spec: header lists are ordered sequences of
(name, value) byte-string pairs (`_typing.py`, which defines `HeadersType`,
is not among the sources; §3 of the spec fixes this shape). -/
abbrev Headers := List (Bytes × Bytes)

/-- Modelled from the spec: remote addresses are opaque values this layer
only forwards (`_typing.py`, which defines `AddressType`, is not among the
sources). -/
abbrev Address := String

/-- Modelled from the spec: the uniform event union of §3
(`urllib3_ext_hface/events/_events.py` is not among the sources; §3 of the
spec lists the variants and their payloads). -/
inductive Event
  | handshakeCompleted (alpnProtocol : String)
  | headersReceived (streamId : Nat) (headers : Headers) (endStream : Bool)
  | dataReceived (streamId : Nat) (payload : Bytes) (endStream : Bool)
  | streamResetReceived (streamId : Nat) (errorCode : Int)
  | streamResetSent (streamId : Nat) (errorCode : Int)
  | goawayReceived (lastStreamId : Nat) (errorCode : Int)
  | connectionTerminated (errorCode : Int) (message : Option String)
  deriving DecidableEq

/-- Python exceptions that can escape the adapter methods we model. -/
inductive PyError
  | protocolError (errorCode : Int) (message : String)
  | assertionError
  | valueError (message : String)
  deriving DecidableEq

namespace H2

/-- Native notifications of the wrapped `h2` engine, as consumed by
`HTTP2ProtocolHyperImpl._map_events`.  `streamEnded` models
`e.stream_ended is not None`; `otherEvent` stands for every `h2` event kind
the adapter's `isinstance` chain ignores. -/
inductive NativeEvent
  | requestReceived (streamId : Nat) (headers : Headers) (streamEnded : Bool)
  | responseReceived (streamId : Nat) (headers : Headers) (streamEnded : Bool)
  | trailersReceived (streamId : Nat) (headers : Headers) (streamEnded : Bool)
  | dataReceived (streamId : Nat) (data : Bytes) (streamEnded : Bool)
      (flowControlledLength : Nat)
  | streamReset (streamId : Nat) (errorCode : Int)
  | connectionTerminated (lastStreamId : Nat) (errorCode : Int)
  | settingsAcknowledged
  | otherEvent
  deriving DecidableEq

/-- State of `HTTP2ProtocolHyperImpl`: the `_events` deque (front of the
list = left of the deque), the `_terminated` flag, and a log of the
`acknowledge_received_data(flow_controlled_length, stream_id)` calls made
into the wrapped engine. -/
structure State where
  events : List Event
  terminated : Bool
  ackLog : List (Nat × Nat)
  deriving DecidableEq

/-- State right after `__init__`. -/
def init : State := { events := [], terminated := false, ackLog := [] }

/-- Method `is_available`. -/
def is_available (s : State) : Bool := !s.terminated

/-- Method `has_expired`. -/
def has_expired (s : State) : Bool := s.terminated

/-- Method `_connection_terminated`: guarded on `_terminated`; appends exactly one
`ConnectionTerminated` event on the first call. -/
def _connection_terminated (s : State) (errorCode : Int) (message : Option String) :
    State :=
  if s.terminated then s
  else { s with terminated := true,
                events := s.events ++ [Event.connectionTerminated errorCode message] }

/-- Method `connection_lost`. -/
def connection_lost (s : State) : State := _connection_terminated s 0 none

/-- Method `eof_received`. -/
def eof_received (s : State) : State := _connection_terminated s 0 none

/-- One step of `_map_events`, as a trace of actions: an engine call
`acknowledge_received_data` or an event yielded to the caller.  The order of
the actions is the order in which the Python generator performs them. -/
inductive Action
  | ack (flowControlledLength : Nat) (streamId : Nat)
  | emit (e : Event)
  deriving DecidableEq

/-- Method `_map_events`, flattened to the action trace the generator performs:
for a native `DataReceived` the engine acknowledgment comes immediately
before the yielded event. -/
def mapEvents : List NativeEvent → List Action
  | [] => []
  | e :: rest =>
    (match e with
     | .requestReceived sid hs ended => [Action.emit (Event.headersReceived sid hs ended)]
     | .responseReceived sid hs ended => [Action.emit (Event.headersReceived sid hs ended)]
     | .trailersReceived sid hs ended => [Action.emit (Event.headersReceived sid hs ended)]
     | .dataReceived sid d ended flen =>
         [Action.ack flen sid, Action.emit (Event.dataReceived sid d ended)]
     | .streamReset sid ec => [Action.emit (Event.streamResetReceived sid ec)]
     | .connectionTerminated lsid ec => [Action.emit (Event.goawayReceived lsid ec)]
     | .settingsAcknowledged => [Action.emit (Event.handshakeCompleted "h2")]
     | .otherEvent => []) ++ mapEvents rest

/-- Replay an action trace onto the adapter state: acks go to the engine-call
log, emitted events are appended to the `_events` deque (this is
`self._events.extend(self._map_events(h2_events))`). -/
def applyActions (s : State) : List Action → State
  | [] => s
  | Action.ack flen sid :: rest =>
      applyActions { s with ackLog := s.ackLog ++ [(flen, sid)] } rest
  | Action.emit e :: rest =>
      applyActions { s with events := s.events ++ [e] } rest

/-- Behaviour of the wrapped engine's `receive_data` for one call: either a
list of native events, or a raised `h2.exceptions.ProtocolError` carrying an
error code and a message. -/
inductive ReceiveOutcome
  | events (evs : List NativeEvent)
  | protocolError (errorCode : Int) (message : String)

/-- Method `bytes_received`: empty input returns immediately; otherwise the engine
is consulted, a `ProtocolError` is caught and routed to
`_connection_terminated` with the error's own code and message, and a
normal return extends the event deque with the mapped events. -/
def bytes_received (s : State) (data : Bytes) (outcome : ReceiveOutcome) : State :=
  if data = [] then s
  else
    match outcome with
    | .protocolError ec msg => _connection_terminated s ec (some msg)
    | .events evs => applyActions s (mapEvents evs)

/-- Method `next_event`: pop one event from the left of the deque, or `none`. -/
def next_event (s : State) : Option Event × State :=
  match s.events with
  | [] => (none, s)
  | e :: rest => (some e, { s with events := rest })

/-- Method `has_pending_event`. -/
def has_pending_event (s : State) : Bool := decide (s.events ≠ [])

end H2

namespace Quic

/-- Native notifications of the wrapped QUIC engine, as consumed by
`_map_quic_event` in both HTTP/3 adapters.  `otherEvent` stands for every
QUIC event kind the `isinstance` chains ignore. -/
inductive QuicEvent
  | connectionIdIssued (connectionId : Bytes)
  | connectionIdRetired (connectionId : Bytes)
  | handshakeCompleted (alpnProtocol : String)
  | connectionTerminated (errorCode : Int) (reasonPhrase : String)
  | streamReset (streamId : Nat) (errorCode : Int)
  | otherEvent
  deriving DecidableEq

/-- Native notifications of the wrapped HTTP/3 framing layer, as consumed by
`_map_h3_event` in both HTTP/3 adapters. -/
inductive H3Event
  | headersReceived (streamId : Nat) (headers : Headers) (streamEnded : Bool)
  | dataReceived (streamId : Nat) (data : Bytes) (streamEnded : Bool)
  | otherEvent
  deriving DecidableEq

/-- Calls the HTTP/3 adapters make into the wrapped QUIC engine. -/
inductive QuicCall
  | receiveDatagram (data : Bytes)
  | connect
  | close (errorCode : Int) (frameType : Nat)
  | resetStream (streamId : Nat) (errorCode : Int)
  deriving DecidableEq

end Quic

namespace AioQuic

/-- State of `HTTP3ProtocolAioQuicImpl`: the `_connection_ids` set, the
`_event_buffer` deque, whether `_http` is initialized (`_http is not None`),
the `_terminated` flag, and the log of calls made into the wrapped QUIC
engine. -/
structure State where
  connectionIds : Finset Bytes
  eventBuffer : List Event
  httpInitialized : Bool
  terminated : Bool
  quicCalls : List Quic.QuicCall
  deriving DecidableEq

/-- State right after `__init__` (for any TLS configuration): `_http` is
`None` and the id set is empty. -/
def init : State :=
  { connectionIds := ∅, eventBuffer := [], httpInitialized := false,
    terminated := false, quicCalls := [] }

/-- Method `is_available`. -/
def is_available (s : State) : Bool := !s.terminated

/-- Method `has_expired`. -/
def has_expired (s : State) : Bool := s.terminated

/-- Method `submit_close`: chooses the CONNECTION_CLOSE frame type by the Python
truthiness of `error_code` (`0x1D if error_code else 0x1C`) and forwards the
error code unchanged to `self._quic.close`. -/
def submit_close (s : State) (errorCode : Int) : State :=
  { s with quicCalls :=
      s.quicCalls ++ [Quic.QuicCall.close errorCode
        (if errorCode ≠ 0 then 0x1D else 0x1C)] }

/-- Method `submit_stream_reset`. -/
def submit_stream_reset (s : State) (streamId : Nat) (errorCode : Int) : State :=
  { s with quicCalls := s.quicCalls ++ [Quic.QuicCall.resetStream streamId errorCode] }

/-- Method `connection_lost`: unconditionally sets `_terminated` and appends a
`ConnectionTerminated()` event (default code 0, no message); there is no
guard against repeated calls. -/
def connection_lost (s : State) : State :=
  { s with terminated := true,
           eventBuffer := s.eventBuffer ++ [Event.connectionTerminated 0 none] }

/-- Method `_map_quic_event`: the first `isinstance` chain mutates the
`_connection_ids` set (`set.add` / `set.remove` wrapped in
`try ... except KeyError: pass`, so retiring an absent id is tolerated); the
second chain yields the mapped event, with a QUIC `ConnectionTerminated`
also setting `_terminated`. -/
def _map_quic_event (s : State) (e : Quic.QuicEvent) : State × List Event :=
  let s1 : State :=
    match e with
    | .connectionIdIssued cid => { s with connectionIds := insert cid s.connectionIds }
    | .connectionIdRetired cid => { s with connectionIds := s.connectionIds.erase cid }
    | _ => s
  match e with
  | .handshakeCompleted alpn => (s1, [Event.handshakeCompleted alpn])
  | .connectionTerminated ec reason =>
      ({ s1 with terminated := true }, [Event.connectionTerminated ec (some reason)])
  | .streamReset sid ec => (s1, [Event.streamResetReceived sid ec])
  | _ => (s1, [])

/-- Method `_map_h3_event`. -/
def _map_h3_event : Quic.H3Event → List Event
  | .headersReceived sid hs ended => [Event.headersReceived sid hs ended]
  | .dataReceived sid d ended => [Event.dataReceived sid d ended]
  | .otherEvent => []

/-- The drain loop of `_fetch_events`: each drained QUIC event is mapped and
its events appended, then the HTTP/3 layer's events for the same QUIC event
are mapped and appended.  The wrapped engines' behaviour for one call is the
list of (QUIC event, HTTP/3 events produced by `handle_event` on it) pairs. -/
def processPairs (s : State) : List (Quic.QuicEvent × List Quic.H3Event) → State
  | [] => s
  | (qe, h3s) :: rest =>
    let p := _map_quic_event s qe
    processPairs
      { p.1 with eventBuffer :=
          p.1.eventBuffer ++ p.2 ++ (h3s.map _map_h3_event).flatten } rest

/-- Method `_fetch_events`: asserts `_http is not None`, drains the engine's event
queue, then maps the engine's private `_close_event` when it is present. -/
def _fetch_events (s : State) (pairs : List (Quic.QuicEvent × List Quic.H3Event))
    (closeEvent : Option Quic.QuicEvent) : Except (PyError × State) State :=
  if s.httpInitialized = false then Except.error (PyError.assertionError, s)
  else
    let s1 := processPairs s pairs
    match closeEvent with
    | none => Except.ok s1
    | some ce =>
      let p := _map_quic_event s1 ce
      Except.ok { p.1 with eventBuffer := p.1.eventBuffer ++ p.2 }

/-- Behaviour of the wrapped engines for one `bytes_received` call: either
normal processing (the drained QUIC events with their HTTP/3 events, and the
engine's `_close_event` if set), or a protocol-layer error raised while the
engines process the datagram. -/
inductive ReceiveOutcome
  | ok (pairs : List (Quic.QuicEvent × List Quic.H3Event))
      (closeEvent : Option Quic.QuicEvent)
  | raised (errorCode : Int) (message : String)

/-- Method `bytes_received`: feeds the datagram to the QUIC engine unconditionally
(no empty-input check and no `try`/`except`), then runs `_fetch_events`; an
engine error propagates to the caller, with the engine already fed. -/
def bytes_received (s : State) (data : Bytes) (outcome : ReceiveOutcome) :
    Except (PyError × State) State :=
  let s1 : State :=
    { s with quicCalls := s.quicCalls ++ [Quic.QuicCall.receiveDatagram data] }
  match outcome with
  | .raised ec msg => Except.error (PyError.protocolError ec msg, s1)
  | .ok pairs ce => _fetch_events s1 pairs ce

/-- Method `bytes_to_send`: when `_http is None` it first calls
`self._quic.connect(...)` and constructs the `H3Connection`; it then joins
the datagrams the engine currently wants sent (supplied as the engine's
behaviour for this call). -/
def bytes_to_send (s : State) (datagrams : List Bytes) : State × Bytes :=
  let s1 : State :=
    if s.httpInitialized = false then
      { s with quicCalls := s.quicCalls ++ [Quic.QuicCall.connect],
               httpInitialized := true }
    else s
  (s1, datagrams.flatten)

/-- Method `next_event`. -/
def next_event (s : State) : Option Event × State :=
  match s.eventBuffer with
  | [] => (none, s)
  | e :: rest => (some e, { s with eventBuffer := rest })

/-- Method `has_pending_event`. -/
def has_pending_event (s : State) : Bool := decide (s.eventBuffer ≠ [])

end AioQuic

namespace ProtocolImpl

/-- State of `HTTP3ProtocolImpl` (`http3/_protocol.py`): like the qh3-based
adapter, plus the configuration's role flag and the optional remote
address taken by `__init__`. -/
structure State where
  isClient : Bool
  remoteAddress : Option Address
  connectionIds : Finset Bytes
  eventBuffer : List Event
  httpInitialized : Bool
  terminated : Bool
  quicCalls : List Quic.QuicCall
  deriving DecidableEq

/-- Method `__init__`: raises `ValueError` when the configuration is for a client
and no remote address is given; otherwise `_http` starts as `None` for every
role — nothing in the constructor initializes the HTTP/3 layer. -/
def init (isClient : Bool) (remoteAddress : Option Address) :
    Except PyError State :=
  if isClient = true ∧ remoteAddress = none then
    Except.error (PyError.valueError "remote_address is required for client connections.")
  else
    Except.ok
      { isClient := isClient, remoteAddress := remoteAddress,
        connectionIds := ∅, eventBuffer := [], httpInitialized := false,
        terminated := false, quicCalls := [] }

/-- Method `is_available`. -/
def is_available (s : State) : Bool := !s.terminated

/-- Method `has_expired`. -/
def has_expired (s : State) : Bool := s.terminated

/-- Method `submit_close`: identical to the qh3-based adapter
(`0x1D if error_code else 0x1C`). -/
def submit_close (s : State) (errorCode : Int) : State :=
  { s with quicCalls :=
      s.quicCalls ++ [Quic.QuicCall.close errorCode
        (if errorCode ≠ 0 then 0x1D else 0x1C)] }

/-- Method `submit_stream_reset`. -/
def submit_stream_reset (s : State) (streamId : Nat) (errorCode : Int) : State :=
  { s with quicCalls := s.quicCalls ++ [Quic.QuicCall.resetStream streamId errorCode] }

/-- Method `connection_lost`: unconditional, exactly as in the qh3-based adapter. -/
def connection_lost (s : State) : State :=
  { s with terminated := true,
           eventBuffer := s.eventBuffer ++ [Event.connectionTerminated 0 none] }

/-- Method `_map_quic_event`: textually identical to the qh3-based adapter's. -/
def _map_quic_event (s : State) (e : Quic.QuicEvent) : State × List Event :=
  let s1 : State :=
    match e with
    | .connectionIdIssued cid => { s with connectionIds := insert cid s.connectionIds }
    | .connectionIdRetired cid => { s with connectionIds := s.connectionIds.erase cid }
    | _ => s
  match e with
  | .handshakeCompleted alpn => (s1, [Event.handshakeCompleted alpn])
  | .connectionTerminated ec reason =>
      ({ s1 with terminated := true }, [Event.connectionTerminated ec (some reason)])
  | .streamReset sid ec => (s1, [Event.streamResetReceived sid ec])
  | _ => (s1, [])

/-- Method `_map_h3_event`. -/
def _map_h3_event : Quic.H3Event → List Event
  | .headersReceived sid hs ended => [Event.headersReceived sid hs ended]
  | .dataReceived sid d ended => [Event.dataReceived sid d ended]
  | .otherEvent => []

/-- The drain loop of `_fetch_events`. -/
def processPairs (s : State) : List (Quic.QuicEvent × List Quic.H3Event) → State
  | [] => s
  | (qe, h3s) :: rest =>
    let p := _map_quic_event s qe
    processPairs
      { p.1 with eventBuffer :=
          p.1.eventBuffer ++ p.2 ++ (h3s.map _map_h3_event).flatten } rest

/-- Method `_fetch_events`: asserts `_http is not None` and drains the engine's
event queue.  This adapter has no `_close_event` introspection. -/
def _fetch_events (s : State) (pairs : List (Quic.QuicEvent × List Quic.H3Event)) :
    Except (PyError × State) State :=
  if s.httpInitialized = false then Except.error (PyError.assertionError, s)
  else Except.ok (processPairs s pairs)

/-- Behaviour of the wrapped engines for one `bytes_received` call. -/
inductive ReceiveOutcome
  | ok (pairs : List (Quic.QuicEvent × List Quic.H3Event))
  | raised (errorCode : Int) (message : String)

/-- Method `bytes_received`: feeds the datagram unconditionally (no empty-input
check, no `try`/`except`) and runs `_fetch_events`. -/
def bytes_received (s : State) (data : Bytes) (outcome : ReceiveOutcome) :
    Except (PyError × State) State :=
  let s1 : State :=
    { s with quicCalls := s.quicCalls ++ [Quic.QuicCall.receiveDatagram data] }
  match outcome with
  | .raised ec msg => Except.error (PyError.protocolError ec msg, s1)
  | .ok pairs => _fetch_events s1 pairs

/-- Method `bytes_to_send`: lazily connects and builds the `H3Connection` when
`_http is None`, for every role. -/
def bytes_to_send (s : State) (datagrams : List Bytes) : State × Bytes :=
  let s1 : State :=
    if s.httpInitialized = false then
      { s with quicCalls := s.quicCalls ++ [Quic.QuicCall.connect],
               httpInitialized := true }
    else s
  (s1, datagrams.flatten)

/-- Method `next_event`. -/
def next_event (s : State) : Option Event × State :=
  match s.eventBuffer with
  | [] => (none, s)
  | e :: rest => (some e, { s with eventBuffer := rest })

/-- Method `has_pending_event`. -/
def has_pending_event (s : State) : Bool := decide (s.eventBuffer ≠ [])

end ProtocolImpl

namespace AioQuic

/-- The adapter object's state after a call, whether the call returned
normally or let a Python exception escape (the object keeps its mutations
either way). -/
def resultState : Except (PyError × State) State → State
  | .ok s => s
  | .error (_, s) => s

end AioQuic

namespace ProtocolImpl

/-- The adapter object's state after a call, normal return or exception. -/
def resultState : Except (PyError × State) State → State
  | .ok s => s
  | .error (_, s) => s

end ProtocolImpl

namespace H2

/-- Replaying an action trace never touches the `_terminated` flag. -/
theorem applyActions_terminated : ∀ (acts : List Action) (s : State),
    (applyActions s acts).terminated = s.terminated := by
  intro acts
  induction acts with
  | nil => intro s; rfl
  | cons a rest ih => intro s; cases a <;> simp [applyActions, ih]

/-- The engine acknowledgments contained in an action trace, in order. -/
def acksOfActions : List Action → List (Nat × Nat)
  | [] => []
  | Action.ack flen sid :: rest => (flen, sid) :: acksOfActions rest
  | Action.emit _ :: rest => acksOfActions rest

theorem acksOfActions_append : ∀ l1 l2 : List Action,
    acksOfActions (l1 ++ l2) = acksOfActions l1 ++ acksOfActions l2 := by
  intro l1 l2
  induction l1 with
  | nil => rfl
  | cons a rest ih => cases a <;> simp [acksOfActions, ih]

/-- Replaying an action trace appends exactly the trace's acknowledgments to
the engine-call log. -/
theorem applyActions_ackLog : ∀ (acts : List Action) (s : State),
    (applyActions s acts).ackLog = s.ackLog ++ acksOfActions acts := by
  intro acts
  induction acts with
  | nil => intro s; simp [applyActions, acksOfActions]
  | cons a rest ih => intro s; cases a <;> simp [applyActions, acksOfActions, ih]

end H2

namespace AioQuic

theorem mapQuicEvent_quicCalls (s : State) (e : Quic.QuicEvent) :
    (_map_quic_event s e).1.quicCalls = s.quicCalls := by
  cases e <;> rfl

theorem mapQuicEvent_httpInitialized (s : State) (e : Quic.QuicEvent) :
    (_map_quic_event s e).1.httpInitialized = s.httpInitialized := by
  cases e <;> rfl

theorem mapQuicEvent_terminated_mono (s : State) (e : Quic.QuicEvent)
    (h : s.terminated = true) : (_map_quic_event s e).1.terminated = true := by
  cases e <;> first | exact h | rfl

theorem processPairs_quicCalls (pairs : List (Quic.QuicEvent × List Quic.H3Event)) :
    ∀ s : State, (processPairs s pairs).quicCalls = s.quicCalls := by
  induction pairs with
  | nil => intro s; rfl
  | cons p rest ih =>
    intro s
    obtain ⟨qe, h3s⟩ := p
    rw [processPairs, ih]
    exact mapQuicEvent_quicCalls s qe

theorem processPairs_httpInitialized (pairs : List (Quic.QuicEvent × List Quic.H3Event)) :
    ∀ s : State, (processPairs s pairs).httpInitialized = s.httpInitialized := by
  induction pairs with
  | nil => intro s; rfl
  | cons p rest ih =>
    intro s
    obtain ⟨qe, h3s⟩ := p
    rw [processPairs, ih]
    exact mapQuicEvent_httpInitialized s qe

theorem processPairs_terminated_mono (pairs : List (Quic.QuicEvent × List Quic.H3Event)) :
    ∀ s : State, s.terminated = true → (processPairs s pairs).terminated = true := by
  induction pairs with
  | nil => intro s h; exact h
  | cons p rest ih =>
    intro s h
    obtain ⟨qe, h3s⟩ := p
    rw [processPairs]
    exact ih _ (mapQuicEvent_terminated_mono s qe h)

end AioQuic

namespace ProtocolImpl

theorem mapQuicEvent_quicCalls_impl (s : State) (e : Quic.QuicEvent) :
    (_map_quic_event s e).1.quicCalls = s.quicCalls := by
  cases e <;> rfl

theorem mapQuicEvent_httpInitialized_impl (s : State) (e : Quic.QuicEvent) :
    (_map_quic_event s e).1.httpInitialized = s.httpInitialized := by
  cases e <;> rfl

theorem mapQuicEvent_terminated_mono_impl (s : State) (e : Quic.QuicEvent)
    (h : s.terminated = true) : (_map_quic_event s e).1.terminated = true := by
  cases e <;> first | exact h | rfl

theorem processPairs_quicCalls_impl (pairs : List (Quic.QuicEvent × List Quic.H3Event)) :
    ∀ s : State, (processPairs s pairs).quicCalls = s.quicCalls := by
  induction pairs with
  | nil => intro s; rfl
  | cons p rest ih =>
    intro s
    obtain ⟨qe, h3s⟩ := p
    rw [processPairs, ih]
    exact mapQuicEvent_quicCalls_impl s qe

theorem processPairs_httpInitialized_impl (pairs : List (Quic.QuicEvent × List Quic.H3Event)) :
    ∀ s : State, (processPairs s pairs).httpInitialized = s.httpInitialized := by
  induction pairs with
  | nil => intro s; rfl
  | cons p rest ih =>
    intro s
    obtain ⟨qe, h3s⟩ := p
    rw [processPairs, ih]
    exact mapQuicEvent_httpInitialized_impl s qe

theorem processPairs_terminated_mono_impl (pairs : List (Quic.QuicEvent × List Quic.H3Event)) :
    ∀ s : State, s.terminated = true → (processPairs s pairs).terminated = true := by
  induction pairs with
  | nil => intro s h; exact h
  | cons p rest ih =>
    intro s h
    obtain ⟨qe, h3s⟩ := p
    rw [processPairs]
    exact ih _ (mapQuicEvent_terminated_mono_impl s qe h)

end ProtocolImpl

/-- C10: for every state of the HTTP/2 adapter and of both HTTP/3 adapters,
`is_available()` returns exactly the negation of `has_expired()`: both are
pure reads of the single `_terminated` flag, so an adapter is never
simultaneously available and expired, nor unavailable and unexpired. -/
theorem c10_is_available_negates_has_expired :
    (∀ s : H2.State, H2.is_available s = !H2.has_expired s) ∧
    (∀ s : AioQuic.State, AioQuic.is_available s = !AioQuic.has_expired s) ∧
    (∀ s : ProtocolImpl.State, ProtocolImpl.is_available s = !ProtocolImpl.has_expired s) :=
  ⟨fun _ => rfl, fun _ => rfl, fun _ => rfl⟩

/-- C8: for every HTTP/3 adapter and every integer error code,
`submit_close(error_code)` closes the wrapped QUIC engine with frame type
0x1D when the code is non-zero and 0x1C when it is zero, passing the error
code through unchanged. -/
theorem c8_submit_close_frame_type :
    ∀ ec : Int,
      (∀ s : AioQuic.State, (AioQuic.submit_close s ec).quicCalls =
          s.quicCalls ++ [Quic.QuicCall.close ec (if ec = 0 then 0x1C else 0x1D)]) ∧
      (∀ s : ProtocolImpl.State, (ProtocolImpl.submit_close s ec).quicCalls =
          s.quicCalls ++ [Quic.QuicCall.close ec (if ec = 0 then 0x1C else 0x1D)]) := by
  intro ec
  constructor
  · intro s
    by_cases h : ec = 0 <;> simp [AioQuic.submit_close, h]
  · intro s
    by_cases h : ec = 0 <;> simp [ProtocolImpl.submit_close, h]

/-- C2 as stated is false: on the qh3-based HTTP/3 adapter, calling the
transport-level termination trigger `connection_lost` twice in a row queues
two `ConnectionTerminated` events, not one. -/
theorem c2_counterexample :
    (AioQuic.connection_lost (AioQuic.connection_lost AioQuic.init)).eventBuffer
      = [Event.connectionTerminated 0 none, Event.connectionTerminated 0 none] := rfl

/-- C2 amended: the HTTP/2 adapter's termination is idempotent — a second
transport-level trigger (`connection_lost` or `eof_received`) is a no-op
and a fresh adapter that loses its connection twice holds exactly one
`ConnectionTerminated` event; the HTTP/3 adapters' `connection_lost` is not
guarded and appends a `ConnectionTerminated` event on every call. -/
theorem c2_termination_idempotent_only_h2 :
    (∀ s : H2.State,
        H2.connection_lost (H2.connection_lost s) = H2.connection_lost s ∧
        H2.eof_received (H2.connection_lost s) = H2.connection_lost s) ∧
    (H2.connection_lost (H2.connection_lost H2.init)).events
      = [Event.connectionTerminated 0 none] ∧
    (∀ s : AioQuic.State, (AioQuic.connection_lost s).eventBuffer
      = s.eventBuffer ++ [Event.connectionTerminated 0 none]) ∧
    (∀ s : ProtocolImpl.State, (ProtocolImpl.connection_lost s).eventBuffer
      = s.eventBuffer ++ [Event.connectionTerminated 0 none]) := by
  refine ⟨fun s => ?_, rfl, fun s => rfl, fun s => rfl⟩
  by_cases h : s.terminated <;>
    simp [H2.connection_lost, H2.eof_received, H2._connection_terminated, h]

/-- C4: for the HTTP/2 adapter, a peer-sent GOAWAY (the engine's native
connection-terminated notification) processed by `bytes_received` yields
exactly one `GoawayReceived(last_stream_id, error_code)` event, does not set
the terminated flag, and afterwards `is_available()` is still true and
`has_expired()` still false. -/
theorem c4_h2_goaway_is_graceful (s : H2.State) (data : Bytes) (lsid : Nat) (ec : Int)
    (hdata : data ≠ []) (hterm : s.terminated = false) :
    (H2.bytes_received s data (H2.ReceiveOutcome.events
        [H2.NativeEvent.connectionTerminated lsid ec])).events
      = s.events ++ [Event.goawayReceived lsid ec] ∧
    (H2.bytes_received s data (H2.ReceiveOutcome.events
        [H2.NativeEvent.connectionTerminated lsid ec])).terminated = false ∧
    H2.is_available (H2.bytes_received s data (H2.ReceiveOutcome.events
        [H2.NativeEvent.connectionTerminated lsid ec])) = true ∧
    H2.has_expired (H2.bytes_received s data (H2.ReceiveOutcome.events
        [H2.NativeEvent.connectionTerminated lsid ec])) = false := by
  simp [H2.bytes_received, hdata, H2.mapEvents, H2.applyActions,
        H2.is_available, H2.has_expired, hterm]

/-- Witness for C4 at a concrete input: a fresh client adapter fed one byte
that the engine reports as a GOAWAY with `last_stream_id = 3`,
`error_code = 0`. -/
theorem c4_h2_goaway_is_graceful_witness :
    (H2.bytes_received H2.init [0] (H2.ReceiveOutcome.events
        [H2.NativeEvent.connectionTerminated 3 0])).events
      = H2.init.events ++ [Event.goawayReceived 3 0] ∧
    (H2.bytes_received H2.init [0] (H2.ReceiveOutcome.events
        [H2.NativeEvent.connectionTerminated 3 0])).terminated = false ∧
    H2.is_available (H2.bytes_received H2.init [0] (H2.ReceiveOutcome.events
        [H2.NativeEvent.connectionTerminated 3 0])) = true ∧
    H2.has_expired (H2.bytes_received H2.init [0] (H2.ReceiveOutcome.events
        [H2.NativeEvent.connectionTerminated 3 0])) = false :=
  c4_h2_goaway_is_graceful H2.init [0] 3 0 (by decide) rfl

/-- C9 as stated is false: the qh3-based HTTP/3 adapter's `bytes_received`
with an empty byte string is not a no-op — it still feeds the wrapped
engine, logging a `receive_datagram` call with the empty datagram (here on
an adapter whose HTTP/3 layer was initialized by a prior `bytes_to_send`). -/
theorem c9_counterexample :
    AioQuic.bytes_received (AioQuic.bytes_to_send AioQuic.init []).1 []
        (AioQuic.ReceiveOutcome.ok [] none)
      = Except.ok
          { connectionIds := ∅, eventBuffer := [], httpInitialized := true,
            terminated := false,
            quicCalls := [Quic.QuicCall.connect, Quic.QuicCall.receiveDatagram []] } := rfl

/-- C9 amended: only the HTTP/2 adapter treats empty input to
`bytes_received` as a no-op (the engine is not consulted and the state is
returned unchanged); both HTTP/3 adapters call `receive_datagram` on the
wrapped engine unconditionally, even for an empty datagram. -/
theorem c9_empty_input_no_op_only_h2 :
    (∀ (s : H2.State) (outcome : H2.ReceiveOutcome),
        H2.bytes_received s [] outcome = s) ∧
    (∀ (s : AioQuic.State) (outcome : AioQuic.ReceiveOutcome),
        (AioQuic.resultState (AioQuic.bytes_received s [] outcome)).quicCalls
          = s.quicCalls ++ [Quic.QuicCall.receiveDatagram []]) ∧
    (∀ (s : ProtocolImpl.State) (outcome : ProtocolImpl.ReceiveOutcome),
        (ProtocolImpl.resultState (ProtocolImpl.bytes_received s [] outcome)).quicCalls
          = s.quicCalls ++ [Quic.QuicCall.receiveDatagram []]) := by
  refine ⟨fun s outcome => rfl, fun s outcome => ?_, fun s outcome => ?_⟩
  · cases outcome with
    | raised ec msg => rfl
    | ok pairs ce =>
      simp only [AioQuic.bytes_received, AioQuic._fetch_events]
      by_cases h : s.httpInitialized = false
      · simp [h, AioQuic.resultState]
      · cases ce with
        | none =>
          simp [h, AioQuic.resultState, AioQuic.processPairs_quicCalls]
        | some ce =>
          simp [h, AioQuic.resultState, AioQuic.mapQuicEvent_quicCalls,
                AioQuic.processPairs_quicCalls]
  · cases outcome with
    | raised ec msg => rfl
    | ok pairs =>
      simp only [ProtocolImpl.bytes_received, ProtocolImpl._fetch_events]
      by_cases h : s.httpInitialized = false
      · simp [h, ProtocolImpl.resultState]
      · simp [h, ProtocolImpl.resultState, ProtocolImpl.processPairs_quicCalls_impl]

/-- C3 as stated is false: the qh3-based HTTP/3 adapter does not catch
engine errors in `bytes_received` — a protocol-layer error raised by the
wrapped engines while processing an inbound datagram propagates to the
caller instead of being converted into a `ConnectionTerminated` event. -/
theorem c3_counterexample :
    AioQuic.bytes_received AioQuic.init [0]
        (AioQuic.ReceiveOutcome.raised 1 "frame error")
      = Except.error (PyError.protocolError 1 "frame error",
          { AioQuic.init with quicCalls := [Quic.QuicCall.receiveDatagram [0]] }) := rfl

/-- C3 amended: the HTTP/2 adapter catches the engine's `ProtocolError`
raised while `bytes_received` processes inbound bytes and returns normally,
appending (when not already terminated) a `ConnectionTerminated` event
carrying the error's own code and message, and appending nothing when
already terminated; the HTTP/3 adapters do not catch — the engine's error
propagates to the caller. -/
theorem c3_only_h2_catches_engine_errors (data : Bytes) (ec : Int) (msg : String)
    (hdata : data ≠ []) :
    (∀ s : H2.State, s.terminated = false →
        H2.bytes_received s data (H2.ReceiveOutcome.protocolError ec msg)
          = { s with terminated := true,
                     events := s.events ++ [Event.connectionTerminated ec (some msg)] }) ∧
    (∀ s : H2.State, s.terminated = true →
        H2.bytes_received s data (H2.ReceiveOutcome.protocolError ec msg) = s) ∧
    (∀ t : AioQuic.State,
        AioQuic.bytes_received t data (AioQuic.ReceiveOutcome.raised ec msg)
          = Except.error (PyError.protocolError ec msg,
              { t with quicCalls := t.quicCalls ++ [Quic.QuicCall.receiveDatagram data] })) ∧
    (∀ u : ProtocolImpl.State,
        ProtocolImpl.bytes_received u data (ProtocolImpl.ReceiveOutcome.raised ec msg)
          = Except.error (PyError.protocolError ec msg,
              { u with quicCalls := u.quicCalls ++ [Quic.QuicCall.receiveDatagram data] })) := by
  refine ⟨fun s h => ?_, fun s h => ?_, fun t => rfl, fun u => rfl⟩ <;>
    simp [H2.bytes_received, hdata, H2._connection_terminated, h]

/-- Witness for C3's amended statement at a concrete input. -/
theorem c3_only_h2_catches_engine_errors_witness :
    ([0] : Bytes) ≠ [] ∧ H2.init.terminated = false ∧
    H2.bytes_received H2.init [0] (H2.ReceiveOutcome.protocolError 1 "bad frame")
      = { H2.init with
          terminated := true,
          events := H2.init.events ++ [Event.connectionTerminated 1 (some "bad frame")] } ∧
    AioQuic.bytes_received AioQuic.init [0] (AioQuic.ReceiveOutcome.raised 1 "bad frame")
      = Except.error (PyError.protocolError 1 "bad frame",
          { AioQuic.init with
              quicCalls := AioQuic.init.quicCalls ++ [Quic.QuicCall.receiveDatagram [0]] }) :=
  ⟨by decide, rfl,
   (c3_only_h2_catches_engine_errors [0] 1 "bad frame" (by decide)).1 H2.init rfl,
   (c3_only_h2_catches_engine_errors [0] 1 "bad frame" (by decide)).2.2.1 AioQuic.init⟩

/-- C1 as stated is false: after the HTTP/2 adapter's `ConnectionTerminated`
event has been produced by `connection_lost` and drained by `next_event`,
`has_expired()` is indeed true and the queue is empty, yet a further
`bytes_received` call whose engine processing yields a native
`SettingsAcknowledged` appends a new `HandshakeCompleted` event. -/
theorem c1_counterexample :
    H2.has_expired (H2.next_event (H2.connection_lost H2.init)).2 = true ∧
    (H2.next_event (H2.connection_lost H2.init)).1
      = some (Event.connectionTerminated 0 none) ∧
    (H2.next_event (H2.connection_lost H2.init)).2.events = [] ∧
    (H2.bytes_received (H2.next_event (H2.connection_lost H2.init)).2 [0]
        (H2.ReceiveOutcome.events [H2.NativeEvent.settingsAcknowledged])).events
      = [Event.handshakeCompleted "h2"] :=
  ⟨rfl, rfl, rfl, rfl⟩

/-- C1 amended: after a `ConnectionTerminated` event has been produced,
`has_expired()` is true and stays true across further `bytes_received`
calls, and an HTTP/2 `bytes_received` call during which the engine raises a
protocol error appends nothing further; but event production is not gated
on the terminated flag — a `bytes_received` call whose engine processing
still yields native events appends the mapped events. -/
theorem c1_expired_persists_but_events_not_gated :
    (∀ s : H2.State, H2.has_expired (H2.connection_lost s) = true) ∧
    (∀ (s : H2.State) (data : Bytes) (outcome : H2.ReceiveOutcome),
        s.terminated = true →
        H2.has_expired (H2.bytes_received s data outcome) = true) ∧
    (∀ (s : H2.State) (data : Bytes) (ec : Int) (msg : String),
        s.terminated = true →
        H2.bytes_received s data (H2.ReceiveOutcome.protocolError ec msg) = s) ∧
    (∀ s : AioQuic.State, AioQuic.has_expired (AioQuic.connection_lost s) = true) ∧
    (∀ (s : AioQuic.State) (data : Bytes) (outcome : AioQuic.ReceiveOutcome),
        s.terminated = true →
        (AioQuic.resultState (AioQuic.bytes_received s data outcome)).terminated = true) ∧
    (∀ s : ProtocolImpl.State, ProtocolImpl.has_expired (ProtocolImpl.connection_lost s) = true) ∧
    (∀ (s : ProtocolImpl.State) (data : Bytes) (outcome : ProtocolImpl.ReceiveOutcome),
        s.terminated = true →
        (ProtocolImpl.resultState (ProtocolImpl.bytes_received s data outcome)).terminated = true) := by
  refine ⟨fun s => ?_, fun s data outcome h => ?_, fun s data ec msg h => ?_,
          fun s => rfl, fun s data outcome h => ?_,
          fun s => rfl, fun s data outcome h => ?_⟩
  · by_cases h : s.terminated <;>
      simp [H2.connection_lost, H2._connection_terminated, H2.has_expired, h]
  · by_cases hd : data = []
    · simpa [H2.bytes_received, hd, H2.has_expired] using h
    · cases outcome with
      | protocolError ec msg =>
        simp [H2.bytes_received, hd, H2._connection_terminated, H2.has_expired, h]
      | events evs =>
        simp [H2.bytes_received, hd, H2.has_expired, H2.applyActions_terminated, h]
  · by_cases hd : data = [] <;>
      simp [H2.bytes_received, hd, H2._connection_terminated, h]
  · cases outcome with
    | raised ec msg => simpa [AioQuic.bytes_received, AioQuic.resultState] using h
    | ok pairs ce =>
      by_cases hh : s.httpInitialized = false
      · simpa [AioQuic.bytes_received, AioQuic._fetch_events, hh,
               AioQuic.resultState] using h
      · cases ce with
        | none =>
          simp [AioQuic.bytes_received, AioQuic._fetch_events, hh, AioQuic.resultState]
          exact AioQuic.processPairs_terminated_mono pairs _ h
        | some ce2 =>
          simp [AioQuic.bytes_received, AioQuic._fetch_events, hh, AioQuic.resultState]
          exact AioQuic.mapQuicEvent_terminated_mono _ ce2
            (AioQuic.processPairs_terminated_mono pairs _ h)
  · cases outcome with
    | raised ec msg => simpa [ProtocolImpl.bytes_received, ProtocolImpl.resultState] using h
    | ok pairs =>
      by_cases hh : s.httpInitialized = false
      · simpa [ProtocolImpl.bytes_received, ProtocolImpl._fetch_events, hh,
               ProtocolImpl.resultState] using h
      · simp [ProtocolImpl.bytes_received, ProtocolImpl._fetch_events, hh,
              ProtocolImpl.resultState]
        exact ProtocolImpl.processPairs_terminated_mono_impl pairs _ h

/-- Witness for C1's amended statement at concrete inputs: a terminated
HTTP/2 adapter stays expired through a further `bytes_received`, and the
error path appends nothing. -/
theorem c1_expired_persists_but_events_not_gated_witness :
    (H2.connection_lost H2.init).terminated = true ∧
    H2.has_expired (H2.bytes_received (H2.connection_lost H2.init) [0]
        (H2.ReceiveOutcome.events [])) = true ∧
    H2.bytes_received (H2.connection_lost H2.init) [0]
        (H2.ReceiveOutcome.protocolError 5 "oops") = H2.connection_lost H2.init ∧
    (AioQuic.resultState (AioQuic.bytes_received (AioQuic.connection_lost AioQuic.init) [0]
        (AioQuic.ReceiveOutcome.raised 5 "oops"))).terminated = true :=
  ⟨rfl,
   (c1_expired_persists_but_events_not_gated).2.1 (H2.connection_lost H2.init) [0]
     (H2.ReceiveOutcome.events []) rfl,
   (c1_expired_persists_but_events_not_gated).2.2.1 (H2.connection_lost H2.init) [0] 5 "oops" rfl,
   (c1_expired_persists_but_events_not_gated).2.2.2.2.1 (AioQuic.connection_lost AioQuic.init) [0]
     (AioQuic.ReceiveOutcome.raised 5 "oops") rfl⟩

/-- C7 as stated is false: constructing `HTTP3ProtocolImpl` with a
server-role configuration (`is_client = false`, no remote address) succeeds
but leaves the HTTP/3 framing layer uninitialized (`_http is None`), so
initialization is not performed at construction for a server role. -/
theorem c7_counterexample :
    (ProtocolImpl.init false none).map ProtocolImpl.State.httpInitialized
      = Except.ok false := rfl

/-- C7 amended: for both HTTP/3 adapters the HTTP/3 framing layer is
initialized lazily on the first `bytes_to_send` call regardless of role —
that call also performs the handshake-initiation `connect` call, exactly
once — and at construction the layer is uninitialized even for a server
role; no modelled operation other than `bytes_to_send` initializes it. -/
theorem c7_http3_layer_lazy_for_every_role :
    AioQuic.init.httpInitialized = false ∧
    (∀ (isClient : Bool) (addr : Option Address) (s : ProtocolImpl.State),
        ProtocolImpl.init isClient addr = Except.ok s → s.httpInitialized = false) ∧
    (∀ (s : AioQuic.State) (dgs : List Bytes), s.httpInitialized = false →
        (AioQuic.bytes_to_send s dgs).1.httpInitialized = true ∧
        (AioQuic.bytes_to_send s dgs).1.quicCalls
          = s.quicCalls ++ [Quic.QuicCall.connect]) ∧
    (∀ (s : AioQuic.State) (dgs : List Bytes), s.httpInitialized = true →
        (AioQuic.bytes_to_send s dgs).1 = s) ∧
    (∀ (s : ProtocolImpl.State) (dgs : List Bytes), s.httpInitialized = false →
        (ProtocolImpl.bytes_to_send s dgs).1.httpInitialized = true ∧
        (ProtocolImpl.bytes_to_send s dgs).1.quicCalls
          = s.quicCalls ++ [Quic.QuicCall.connect]) ∧
    (∀ (s : ProtocolImpl.State) (dgs : List Bytes), s.httpInitialized = true →
        (ProtocolImpl.bytes_to_send s dgs).1 = s) ∧
    (∀ (s : AioQuic.State) (data : Bytes) (outcome : AioQuic.ReceiveOutcome),
        (AioQuic.resultState (AioQuic.bytes_received s data outcome)).httpInitialized
          = s.httpInitialized) ∧
    (∀ (s : AioQuic.State) (ec : Int),
        (AioQuic.connection_lost s).httpInitialized = s.httpInitialized ∧
        (AioQuic.submit_close s ec).httpInitialized = s.httpInitialized ∧
        (AioQuic.next_event s).2.httpInitialized = s.httpInitialized) ∧
    (∀ (s : ProtocolImpl.State) (data : Bytes) (outcome : ProtocolImpl.ReceiveOutcome),
        (ProtocolImpl.resultState (ProtocolImpl.bytes_received s data outcome)).httpInitialized
          = s.httpInitialized) ∧
    (∀ (s : ProtocolImpl.State) (ec : Int),
        (ProtocolImpl.connection_lost s).httpInitialized = s.httpInitialized ∧
        (ProtocolImpl.submit_close s ec).httpInitialized = s.httpInitialized ∧
        (ProtocolImpl.next_event s).2.httpInitialized = s.httpInitialized) := by
  refine ⟨rfl, fun isClient addr s hinit => ?_, fun s dgs h => ?_, fun s dgs h => ?_,
          fun s dgs h => ?_, fun s dgs h => ?_, fun s data outcome => ?_,
          fun s ec => ⟨rfl, rfl, ?_⟩, fun s data outcome => ?_,
          fun s ec => ⟨rfl, rfl, ?_⟩⟩
  · by_cases hc : isClient = true ∧ addr = none
    · simp [ProtocolImpl.init, hc] at hinit
    · simp [ProtocolImpl.init, hc] at hinit
      rw [← hinit]
  · simp [AioQuic.bytes_to_send, h]
  · simp [AioQuic.bytes_to_send, h]
  · simp [ProtocolImpl.bytes_to_send, h]
  · simp [ProtocolImpl.bytes_to_send, h]
  · cases outcome with
    | raised ec msg => rfl
    | ok pairs ce =>
      by_cases hh : s.httpInitialized = false
      · simp [AioQuic.bytes_received, AioQuic._fetch_events, hh, AioQuic.resultState]
      · cases ce with
        | none =>
          simp [AioQuic.bytes_received, AioQuic._fetch_events, hh, AioQuic.resultState,
                AioQuic.processPairs_httpInitialized]
        | some ce2 =>
          simp [AioQuic.bytes_received, AioQuic._fetch_events, hh, AioQuic.resultState,
                AioQuic.mapQuicEvent_httpInitialized, AioQuic.processPairs_httpInitialized]
  · cases hs : s.eventBuffer <;> simp [AioQuic.next_event, hs]
  · cases outcome with
    | raised ec msg => rfl
    | ok pairs =>
      by_cases hh : s.httpInitialized = false
      · simp [ProtocolImpl.bytes_received, ProtocolImpl._fetch_events, hh,
              ProtocolImpl.resultState]
      · simp [ProtocolImpl.bytes_received, ProtocolImpl._fetch_events, hh,
              ProtocolImpl.resultState, ProtocolImpl.processPairs_httpInitialized_impl]
  · cases hs : s.eventBuffer <;> simp [ProtocolImpl.next_event, hs]

/-- Witness for C7's amended statement at concrete inputs: a freshly
constructed server-role `HTTP3ProtocolImpl` is uninitialized, and the first
`bytes_to_send` on the qh3-based adapter initializes the layer and connects. -/
theorem c7_http3_layer_lazy_for_every_role_witness :
    AioQuic.init.httpInitialized = false ∧
    (AioQuic.bytes_to_send AioQuic.init []).1.httpInitialized = true ∧
    (AioQuic.bytes_to_send AioQuic.init []).1.quicCalls
      = AioQuic.init.quicCalls ++ [Quic.QuicCall.connect] :=
  ⟨c7_http3_layer_lazy_for_every_role.1,
   (c7_http3_layer_lazy_for_every_role.2.2.1 AioQuic.init [] rfl).1,
   (c7_http3_layer_lazy_for_every_role.2.2.1 AioQuic.init [] rfl).2⟩

namespace H2

/-- The engine acknowledgments a native event list requires: one
`(flow_controlled_length, stream_id)` pair per native `DataReceived`, in
order. -/
def acksOf : List NativeEvent → List (Nat × Nat)
  | [] => []
  | NativeEvent.dataReceived sid _ _ flen :: rest => (flen, sid) :: acksOf rest
  | _ :: rest => acksOf rest

/-- Checks that in an action trace every emitted `DataReceived` event is
immediately preceded by the `acknowledge_received_data` call for its
stream. -/
def ackPrecedesData : List Action → Bool
  | [] => true
  | Action.ack _ sid :: Action.emit (Event.dataReceived sid2 _ _) :: rest =>
      decide (sid = sid2) && ackPrecedesData rest
  | Action.emit (Event.dataReceived _ _ _) :: _ => false
  | _ :: rest => ackPrecedesData rest

theorem ackPrecedesData_mapEvents : ∀ evs : List NativeEvent,
    ackPrecedesData (mapEvents evs) = true := by
  intro evs
  induction evs with
  | nil => rfl
  | cons e rest ih => cases e <;> simp [mapEvents, ackPrecedesData, ih]

theorem acksOfActions_mapEvents : ∀ evs : List NativeEvent,
    acksOfActions (mapEvents evs) = acksOf evs := by
  intro evs
  induction evs with
  | nil => rfl
  | cons e rest ih =>
    cases e <;> simp [mapEvents, acksOfActions_append, acksOfActions, acksOf, ih]

end H2

/-- C6: for the HTTP/2 adapter, every native data-received notification
processed during `bytes_received` has its
`acknowledge_received_data(flow_controlled_length, stream_id)` engine call
immediately before the corresponding `DataReceived` event is queued in the
mapping trace, and by the time `bytes_received` returns — hence before any
later `bytes_to_send()` call — the engine-call log holds exactly one
acknowledgment per native data event, in order. -/
theorem c6_h2_flow_control_ack (evs : List H2.NativeEvent) (s : H2.State)
    (data : Bytes) (hdata : data ≠ []) :
    H2.ackPrecedesData (H2.mapEvents evs) = true ∧
    (H2.bytes_received s data (H2.ReceiveOutcome.events evs)).ackLog
      = s.ackLog ++ H2.acksOf evs := by
  constructor
  · exact H2.ackPrecedesData_mapEvents evs
  · simp [H2.bytes_received, hdata, H2.applyActions_ackLog, H2.acksOfActions_mapEvents]

/-- Witness for C6 at a concrete input: one native data event of
flow-controlled length 7 on stream 1. -/
theorem c6_h2_flow_control_ack_witness :
    H2.ackPrecedesData (H2.mapEvents
        [H2.NativeEvent.dataReceived 1 [9, 9] false 7]) = true ∧
    (H2.bytes_received H2.init [0] (H2.ReceiveOutcome.events
        [H2.NativeEvent.dataReceived 1 [9, 9] false 7])).ackLog
      = H2.init.ackLog ++ H2.acksOf [H2.NativeEvent.dataReceived 1 [9, 9] false 7] :=
  c6_h2_flow_control_ack [H2.NativeEvent.dataReceived 1 [9, 9] false 7]
    H2.init [0] (by decide)

/-- The last issue/retire notification concerning `cid` in a QUIC event
sequence: `some true` when it is an issue, `some false` when it is a
retire, `none` when the sequence never mentions `cid`. -/
def lastIdOp (cid : Bytes) : List Quic.QuicEvent → Option Bool
  | [] => none
  | e :: rest =>
    match lastIdOp cid rest with
    | some b => some b
    | none =>
      match e with
      | Quic.QuicEvent.connectionIdIssued c => if c = cid then some true else none
      | Quic.QuicEvent.connectionIdRetired c => if c = cid then some false else none
      | _ => none

/-- Written from the spec's words for C5 (refinement comparison): the set of
connection ids issued across a notification sequence. -/
def specIssuedIds : List Quic.QuicEvent → Finset Bytes
  | [] => ∅
  | Quic.QuicEvent.connectionIdIssued cid :: rest => insert cid (specIssuedIds rest)
  | _ :: rest => specIssuedIds rest

/-- Written from the spec's words for C5 (refinement comparison): the set of
connection ids retired across a notification sequence. -/
def specRetiredIds : List Quic.QuicEvent → Finset Bytes
  | [] => ∅
  | Quic.QuicEvent.connectionIdRetired cid :: rest => insert cid (specRetiredIds rest)
  | _ :: rest => specRetiredIds rest

namespace AioQuic

/-- Membership in the connection-id set after a processing pass: an id is
present exactly when the last issue/retire notification for it was an
issue, or it was already present and the pass never mentioned it. -/
theorem mem_processPairs (pairs : List (Quic.QuicEvent × List Quic.H3Event)) :
    ∀ (s : State) (cid : Bytes),
      cid ∈ (processPairs s pairs).connectionIds ↔
        (lastIdOp cid (pairs.map Prod.fst) = some true ∨
         (lastIdOp cid (pairs.map Prod.fst) = none ∧ cid ∈ s.connectionIds)) := by
  induction pairs with
  | nil =>
    intro s cid
    simp [processPairs, lastIdOp]
  | cons p rest ih =>
    intro s cid
    obtain ⟨qe, h3s⟩ := p
    rw [processPairs, ih]
    cases hrest : lastIdOp cid (rest.map Prod.fst) with
    | some b => simp [lastIdOp, hrest]
    | none =>
      cases qe with
      | connectionIdIssued c =>
        by_cases hc : c = cid
        · simp [lastIdOp, hrest, _map_quic_event, Finset.mem_insert, hc]
        · simp [lastIdOp, hrest, _map_quic_event, Finset.mem_insert, hc, Ne.symm hc]
      | connectionIdRetired c =>
        by_cases hc : c = cid
        · simp [lastIdOp, hrest, _map_quic_event, Finset.mem_erase, hc]
        · simp [lastIdOp, hrest, _map_quic_event, Finset.mem_erase, hc, Ne.symm hc]
      | handshakeCompleted alpn => simp [lastIdOp, hrest, _map_quic_event]
      | connectionTerminated ec reason => simp [lastIdOp, hrest, _map_quic_event]
      | streamReset sid ec => simp [lastIdOp, hrest, _map_quic_event]
      | otherEvent => simp [lastIdOp, hrest, _map_quic_event]

end AioQuic

namespace ProtocolImpl

/-- Membership in the connection-id set after a processing pass, for the
aioquic-based adapter. -/
theorem mem_processPairs_impl (pairs : List (Quic.QuicEvent × List Quic.H3Event)) :
    ∀ (s : State) (cid : Bytes),
      cid ∈ (processPairs s pairs).connectionIds ↔
        (lastIdOp cid (pairs.map Prod.fst) = some true ∨
         (lastIdOp cid (pairs.map Prod.fst) = none ∧ cid ∈ s.connectionIds)) := by
  induction pairs with
  | nil =>
    intro s cid
    simp [processPairs, lastIdOp]
  | cons p rest ih =>
    intro s cid
    obtain ⟨qe, h3s⟩ := p
    rw [processPairs, ih]
    cases hrest : lastIdOp cid (rest.map Prod.fst) with
    | some b => simp [lastIdOp, hrest]
    | none =>
      cases qe with
      | connectionIdIssued c =>
        by_cases hc : c = cid
        · simp [lastIdOp, hrest, _map_quic_event, Finset.mem_insert, hc]
        · simp [lastIdOp, hrest, _map_quic_event, Finset.mem_insert, hc, Ne.symm hc]
      | connectionIdRetired c =>
        by_cases hc : c = cid
        · simp [lastIdOp, hrest, _map_quic_event, Finset.mem_erase, hc]
        · simp [lastIdOp, hrest, _map_quic_event, Finset.mem_erase, hc, Ne.symm hc]
      | handshakeCompleted alpn => simp [lastIdOp, hrest, _map_quic_event]
      | connectionTerminated ec reason => simp [lastIdOp, hrest, _map_quic_event]
      | streamReset sid ec => simp [lastIdOp, hrest, _map_quic_event]
      | otherEvent => simp [lastIdOp, hrest, _map_quic_event]

end ProtocolImpl

/-- C5 as stated is false: after the sequence issue-a, retire-a, issue-a
(ids may be re-issued), the adapter's connection-id set contains a — the
re-issue wins — while {issued} − {retired} is empty. -/
theorem c5_counterexample :
    (AioQuic.processPairs AioQuic.init
        [(Quic.QuicEvent.connectionIdIssued [0], []),
         (Quic.QuicEvent.connectionIdRetired [0], []),
         (Quic.QuicEvent.connectionIdIssued [0], [])]).connectionIds
      ≠ specIssuedIds
          [Quic.QuicEvent.connectionIdIssued [0],
           Quic.QuicEvent.connectionIdRetired [0],
           Quic.QuicEvent.connectionIdIssued [0]]
        \ specRetiredIds
            [Quic.QuicEvent.connectionIdIssued [0],
             Quic.QuicEvent.connectionIdRetired [0],
             Quic.QuicEvent.connectionIdIssued [0]] := by decide

/-- C5 amended: for both HTTP/3 adapters, after any sequence of
issue/retire notifications is processed through the QUIC event mapping, an
id is in `connection_ids` exactly when its most recent issue/retire
notification is an issue (or it was present before and never mentioned) —
this coincides with {issued} − {retired} whenever no id is re-issued after
being retired — and retiring an id that is not in the set does not raise
and leaves the state unchanged. -/
theorem c5_connection_ids_last_op_wins :
    (∀ (pairs : List (Quic.QuicEvent × List Quic.H3Event)) (s : AioQuic.State) (cid : Bytes),
        cid ∈ (AioQuic.processPairs s pairs).connectionIds ↔
          (lastIdOp cid (pairs.map Prod.fst) = some true ∨
           (lastIdOp cid (pairs.map Prod.fst) = none ∧ cid ∈ s.connectionIds))) ∧
    (∀ (pairs : List (Quic.QuicEvent × List Quic.H3Event)) (s : ProtocolImpl.State) (cid : Bytes),
        cid ∈ (ProtocolImpl.processPairs s pairs).connectionIds ↔
          (lastIdOp cid (pairs.map Prod.fst) = some true ∨
           (lastIdOp cid (pairs.map Prod.fst) = none ∧ cid ∈ s.connectionIds))) ∧
    (∀ (s : AioQuic.State) (cid : Bytes), cid ∉ s.connectionIds →
        (AioQuic._map_quic_event s (Quic.QuicEvent.connectionIdRetired cid)).1 = s) ∧
    (∀ (s : ProtocolImpl.State) (cid : Bytes), cid ∉ s.connectionIds →
        (ProtocolImpl._map_quic_event s (Quic.QuicEvent.connectionIdRetired cid)).1 = s) := by
  refine ⟨fun pairs s cid => AioQuic.mem_processPairs pairs s cid,
          fun pairs s cid => ProtocolImpl.mem_processPairs_impl pairs s cid,
          fun s cid h => ?_, fun s cid h => ?_⟩
  · simp [AioQuic._map_quic_event, Finset.erase_eq_of_not_mem h]
  · simp [ProtocolImpl._map_quic_event, Finset.erase_eq_of_not_mem h]

/-- Witness for C5's amended statement at concrete inputs: retiring an
unknown id on a fresh adapter leaves the state unchanged, and after
issue-a, retire-a the id a is not in the set. -/
theorem c5_connection_ids_last_op_wins_witness :
    (([1] : Bytes) ∉ AioQuic.init.connectionIds) ∧
    (AioQuic._map_quic_event AioQuic.init
        (Quic.QuicEvent.connectionIdRetired [1])).1 = AioQuic.init ∧
    (([0] : Bytes) ∈ (AioQuic.processPairs AioQuic.init
        [(Quic.QuicEvent.connectionIdIssued [0], []),
         (Quic.QuicEvent.connectionIdRetired [0], [])]).connectionIds ↔
      (lastIdOp [0] [Quic.QuicEvent.connectionIdIssued [0],
          Quic.QuicEvent.connectionIdRetired [0]] = some true ∨
       (lastIdOp [0] [Quic.QuicEvent.connectionIdIssued [0],
           Quic.QuicEvent.connectionIdRetired [0]] = none ∧
        ([0] : Bytes) ∈ AioQuic.init.connectionIds))) :=
  ⟨by decide,
   c5_connection_ids_last_op_wins.2.2.1 AioQuic.init [1] (by decide),
   c5_connection_ids_last_op_wins.1
     [(Quic.QuicEvent.connectionIdIssued [0], []),
      (Quic.QuicEvent.connectionIdRetired [0], [])] AioQuic.init [0]⟩

end Hface
